import Mathlib

/-!
Verification of the scene sequencer / timer of `src/app/src/components/ScenePlayer.tsx`.

The component is a React function component.  Its timing core consists of:

* a static scene list `SCENES` (five scenes with fixed millisecond durations),
* a per-frame callback `step` scheduled with `requestAnimationFrame`, which
  publishes a clamped per-scene progress fraction and advances the scene index,
* a derived value `timelineProgress`,
* a `handleReplay` handler resetting the playback state and bumping `runId`,
* a `useEffect` with dependency list `[sceneIndex, runId]` that captures
  `start = performance.now()` when it runs, schedules the first frame, and whose
  cleanup cancels the pending frame via `cancelAnimationFrame`.

The embedding below models timestamps and progress values as rationals
(the source uses IEEE doubles through ordinary arithmetic; all the claims are
order/arithmetic facts that are uniform in the number representation), and
models the React scheduling explicitly:

* `PlayerState` is the quadruple of `useState` cells.
* `FrameCallback` is the data captured by the closure `step` of one effect run:
  the effect dependency `runId` under which it was scheduled, the captured
  `sceneIndex`, and the captured `start` timestamp.
* `MachineState` is a `PlayerState` together with the at-most-one pending
  animation-frame callback (the effect cleanup cancels the previous request, so
  at most one request is ever outstanding).
* `deliverFrame` is one delivery of the pending callback by the host at a
  timestamp `t`; the parameter `r` is the `performance.now()` sample taken by
  the effect body if the scene index changed and the effect re-ran.
* `uiClickReplay` is a click on the replay control, which is only rendered
  (and hence clickable) when `isComplete` is true.
-/

namespace ScenePlayer

/-- `clamp` from ScenePlayer.tsx line 14:
`(value, min = 0, max = 1) => Math.min(max, Math.max(min, value))`. -/
def clamp (value lo hi : ℚ) : ℚ :=
  min hi (max lo value)

/-- `SceneDefinition` from ScenePlayer.tsx lines 6-12.  The `render` field is a
pure visual output function (React nodes); it is out of scope here (spec sect. 1
declares the decorative rendering an external collaborator) and carries no data
the sequencer reads, so it is omitted from the embedding. -/
structure SceneDefinition where
  id : String
  title : String
  caption : String
  duration : ℚ

/-- The static scene list `SCENES`, ScenePlayer.tsx lines 49-90 (ids, titles,
captions and durations exactly as in the source). -/
def SCENES : List SceneDefinition :=
  [⟨"wake", "First Light",
    "You blink awake as the smart blinds part, sunlight shimmering across Egyptian cotton and the skyline beyond the glass.",
    6500⟩,
   ⟨"panorama", "Penthouse Panorama",
    "The panoramic glass reconfigures to reveal Monaco’s harbor while kinetic art pieces glow to life along the marble wall.",
    7200⟩,
   ⟨"portfolio", "Assets in Motion",
    "Your phone unlocks automatically—eight figures across accounts climb in real time as overnight trades settle green.",
    6200⟩,
   ⟨"balcony", "Morning Air",
    "Barefoot across the heated teak, you step toward the infinity pool as the Mediterranean breeze lifts the sheer curtains.",
    7000⟩,
   ⟨"heli", "Helipad Arrival",
    "Rotor blades thunder overhead; a waiting helicopter idles on the helipad, flight plan to the private island already filed.",
    7200⟩]

/-- `TOTAL_DURATION`, ScenePlayer.tsx lines 92-95:
`SCENES.reduce((accumulator, scene) => accumulator + scene.duration, 0)`. -/
def TOTAL_DURATION : ℚ :=
  SCENES.foldl (fun accumulator scene => accumulator + scene.duration) 0

/-- Default scene used to totalise the out-of-range array access
`SCENES[sceneIndex]` (which is undefined behaviour in the source and never
reached from a reachable state, see `Inv`). -/
def noScene : SceneDefinition := ⟨"", "", "", 0⟩

/-- The duration `SCENES[i].duration` read by the callback and by
`timelineProgress` (ScenePlayer.tsx lines 104, 110 and 147). -/
def dur (i : Nat) : ℚ :=
  (SCENES.getD i noScene).duration

/-- The four `useState` cells of the component, ScenePlayer.tsx lines 98-101. -/
structure PlayerState where
  sceneIndex : Nat
  sceneProgress : ℚ
  runId : Nat
  isComplete : Bool
  deriving DecidableEq

/-- The data captured by one effect run's `step` closure
(ScenePlayer.tsx lines 103-133): the effect dependency `runId` in force when the
frame was requested, the captured `sceneIndex`, and the captured
`start = performance.now()` of line 106. -/
structure FrameCallback where
  gen : Nat
  sceneIndex : Nat
  start : ℚ
  deriving DecidableEq

/-- The component state together with the at-most-one pending
`requestAnimationFrame` callback.  The effect cleanup (line 132) cancels the
previous request whenever the effect re-runs, so a single `Option` cell is a
faithful model of the outstanding requests. -/
structure MachineState where
  player : PlayerState
  pending : Option FrameCallback
  deriving DecidableEq

/-- One run of the `useEffect` body (ScenePlayer.tsx lines 103-131) on player
state `p`, with `now` the `performance.now()` sample of line 106: it captures
`start := now` and the current `sceneIndex` and `runId` in the `step` closure
and requests an animation frame; the cleanup of the previous run has cancelled
any previously pending frame, which the overwrite of `pending` models. -/
def runEffect (p : PlayerState) (now : ℚ) : MachineState :=
  ⟨p, some ⟨p.runId, p.sceneIndex, now⟩⟩

/-- The `step` callback, ScenePlayer.tsx lines 108-128, run against live player
state `p` with captured data `cb` at frame timestamp `timestamp`.  Returns the
player state after the (batched) `setState` calls of the callback, and whether
the callback requested another frame (line 127).
* `progress >= 1`, last scene (lines 113-118): publishes `sceneProgress = 1`,
  sets `isComplete`, requests no frame.
* `progress >= 1`, not last (lines 120-124): publishes `sceneProgress = 0`,
  `setSceneIndex(previous => Math.min(previous + 1, SCENES.length - 1))`
  on the live value, requests no frame (the effect re-run restarts the loop).
* otherwise (line 111): publishes the clamped progress and requests a frame.
The guards read the closure's captured `sceneIndex` (`cb.sceneIndex`), exactly
as the source closure does. -/
def step (p : PlayerState) (cb : FrameCallback) (timestamp : ℚ) : PlayerState × Bool :=
  let elapsed := timestamp - cb.start
  let progress := clamp (elapsed / dur cb.sceneIndex) 0 1
  if 1 ≤ progress then
    if SCENES.length - 1 ≤ cb.sceneIndex then
      (⟨p.sceneIndex, 1, p.runId, true⟩, false)
    else
      (⟨min (p.sceneIndex + 1) (SCENES.length - 1), 0, p.runId, p.isComplete⟩, false)
  else
    (⟨p.sceneIndex, progress, p.runId, p.isComplete⟩, true)

/-- Delivery of the pending animation frame at timestamp `t`.  If the callback
left the effect dependencies `(sceneIndex, runId)` unchanged the pending slot is
simply updated (the continue branch re-requests the same closure, the complete
branch requests nothing and the effect does not re-run); if `sceneIndex`
changed, the effect re-runs (ScenePlayer.tsx line 133 dependency list) at time
`r`, capturing a fresh `start`.  `step` never changes `runId`, so the dependency
comparison reduces to the scene index. -/
def deliverFrame (m : MachineState) (t r : ℚ) : MachineState :=
  match m.pending with
  | none => m
  | some cb =>
    let out := step m.player cb t
    if out.2 then ⟨out.1, some cb⟩
    else if out.1.sceneIndex ≠ m.player.sceneIndex then runEffect out.1 r
    else ⟨out.1, none⟩

/-- The host fires a previously obtained frame handle `cb`.  A cancelled handle
never fires (guarantee of `cancelAnimationFrame`), so only the currently pending
callback can run; firing anything else is a no-op. -/
def deliverCallback (m : MachineState) (cb : FrameCallback) (t r : ℚ) : MachineState :=
  if m.pending = some cb then deliverFrame m t r else m

/-- `handleReplay`, ScenePlayer.tsx lines 152-157: `setSceneIndex(0)`,
`setSceneProgress(0)`, `setRunId(id => id + 1)`, `setIsComplete(false)`. -/
def handleReplay (p : PlayerState) : PlayerState :=
  ⟨0, 0, p.runId + 1, false⟩

/-- `elapsedBeforeScene`, ScenePlayer.tsx lines 135-142:
`SCENES.slice(0, sceneIndex).reduce((accumulator, scene) => accumulator + scene.duration, 0)`. -/
def elapsedBeforeScene (sceneIndex : Nat) : ℚ :=
  (SCENES.take sceneIndex).foldl (fun accumulator scene => accumulator + scene.duration) 0

/-- `timelineProgress`, ScenePlayer.tsx lines 144-148:
`isComplete ? 1 : (elapsedBeforeScene + sceneProgress * SCENES[sceneIndex].duration) / TOTAL_DURATION`. -/
def timelineProgress (p : PlayerState) : ℚ :=
  if p.isComplete then 1
  else (elapsedBeforeScene p.sceneIndex + p.sceneProgress * dur p.sceneIndex) / TOTAL_DURATION

/-- The overlay controls rendered at ScenePlayer.tsx lines 232-249: the
itinerary card is always rendered, the replay button only under
`{isComplete && ...}` (line 240). -/
inductive Control where
  | itineraryPanel
  | replayButton
  deriving DecidableEq

/-- Which overlay controls appear in the rendered output for player state `p`
(ScenePlayer.tsx lines 232-249). -/
def overlayControls (p : PlayerState) : List Control :=
  [Control.itineraryPanel] ++ (if p.isComplete then [Control.replayButton] else [])

/-- A user click on the replay control at time `now`.  The button (and its
`onClick={handleReplay}`) exists in the output only when `isComplete` is true
(line 240), so the click dispatches `handleReplay` exactly then; the state
update changes the effect dependencies (`runId` always changes), so the effect
re-runs at `now`, cancelling any pending frame and scheduling a fresh one. -/
def uiClickReplay (m : MachineState) (now : ℚ) : MachineState :=
  if m.player.isComplete then runEffect (handleReplay m.player) now else m

/-- Component mount (ScenePlayer.tsx lines 98-101 initial values, then the
first effect run at time `start0`). -/
def initialState (start0 : ℚ) : MachineState :=
  runEffect ⟨0, 0, 0, false⟩ start0

/-- Delivery of a list of animation frames, each a pair of the frame timestamp
and the effect re-run timestamp used if that frame triggers a scene change. -/
def deliverFrames (m : MachineState) (evs : List (ℚ × ℚ)) : MachineState :=
  evs.foldl (fun acc e => deliverFrame acc e.1 e.2) m

/-- The scene indices observed before each frame delivery and after the last
one. -/
def indexTrace : MachineState → List (ℚ × ℚ) → List Nat
  | m, [] => [m.player.sceneIndex]
  | m, e :: evs => m.player.sceneIndex :: indexTrace (deliverFrame m e.1 e.2) evs

/-- The states reachable by the mounted component: frame deliveries and clicks
on the replay control. -/
inductive Reachable : MachineState → Prop where
  | init (start0 : ℚ) : Reachable (initialState start0)
  | frame {m : MachineState} (t r : ℚ) : Reachable m → Reachable (deliverFrame m t r)
  | click {m : MachineState} (now : ℚ) : Reachable m → Reachable (uiClickReplay m now)

/-- Consistency of the pending-callback slot with the player state: a pending
frame exists exactly while the run is not complete, and it was scheduled by the
effect run for the current `runId` and `sceneIndex`. -/
def cbInv (p : PlayerState) : Option FrameCallback → Prop
  | none => p.isComplete = true
  | some cb => p.isComplete = false ∧ cb.gen = p.runId ∧ cb.sceneIndex = p.sceneIndex

/-- State invariant of the sequencer, preserved by every event. -/
def Inv (m : MachineState) : Prop :=
  m.player.sceneIndex < SCENES.length ∧
  0 ≤ m.player.sceneProgress ∧
  m.player.sceneProgress ≤ 1 ∧
  (m.player.isComplete = true →
    m.player.sceneIndex = SCENES.length - 1 ∧ m.player.sceneProgress = 1) ∧
  (m.player.isComplete = false → m.player.sceneProgress < 1) ∧
  cbInv m.player m.pending

lemma SCENES_length : SCENES.length = 5 := rfl

lemma TOTAL_DURATION_eq : TOTAL_DURATION = 34100 := by
  norm_num [TOTAL_DURATION, SCENES]

lemma dur_eq (i : Nat) : dur i = [(6500 : ℚ), 7200, 6200, 7000, 7200].getD i 0 := by
  match i with
  | 0 => rfl
  | 1 => rfl
  | 2 => rfl
  | 3 => rfl
  | 4 => rfl
  | n + 5 => rfl

lemma dur_pos {i : Nat} (h : i < 5) : 0 < dur i := by
  interval_cases i <;> norm_num [dur_eq]

lemma elapsedBeforeScene_eq (i : Nat) :
    elapsedBeforeScene i = [(0 : ℚ), 6500, 13700, 19900, 26900].getD i 34100 := by
  match i with
  | 0 => norm_num [elapsedBeforeScene, SCENES]
  | 1 => norm_num [elapsedBeforeScene, SCENES]
  | 2 => norm_num [elapsedBeforeScene, SCENES]
  | 3 => norm_num [elapsedBeforeScene, SCENES]
  | 4 => norm_num [elapsedBeforeScene, SCENES]
  | n + 5 => norm_num [elapsedBeforeScene, SCENES, List.take_of_length_le]

lemma clamp_nonneg (x : ℚ) : 0 ≤ clamp x 0 1 := by
  simp [clamp, le_min_iff]

lemma clamp_le_one (x : ℚ) : clamp x 0 1 ≤ 1 := by
  simp [clamp]

lemma clamp_mono {x y : ℚ} (h : x ≤ y) : clamp x 0 1 ≤ clamp y 0 1 := by
  unfold clamp
  exact min_le_min le_rfl (max_le_max le_rfl h)

/-- Branch characterisation: a tick that does not reach the end of the current
scene publishes the clamped progress and re-requests the same callback. -/
lemma deliverFrame_continue {m : MachineState} {c : FrameCallback} {t r : ℚ}
    (hpend : m.pending = some c)
    (h1 : ¬ 1 ≤ clamp ((t - c.start) / dur c.sceneIndex) 0 1) :
    deliverFrame m t r =
      ⟨⟨m.player.sceneIndex, clamp ((t - c.start) / dur c.sceneIndex) 0 1,
        m.player.runId, m.player.isComplete⟩, some c⟩ := by
  simp [deliverFrame, hpend, step, h1]

/-- Branch characterisation: a tick reaching the end of the last scene pins the
progress to 1, sets `isComplete` and leaves no frame pending. -/
lemma deliverFrame_completion {m : MachineState} {c : FrameCallback} {t r : ℚ}
    (hpend : m.pending = some c)
    (h1 : 1 ≤ clamp ((t - c.start) / dur c.sceneIndex) 0 1)
    (h2 : SCENES.length - 1 ≤ c.sceneIndex) :
    deliverFrame m t r = ⟨⟨m.player.sceneIndex, 1, m.player.runId, true⟩, none⟩ := by
  simp [deliverFrame, hpend, step, h1, h2]

/-- Branch characterisation: a tick reaching the end of a non-last scene resets
the progress to 0, advances the index, and the effect re-run at time `r`
schedules a fresh callback with `start = r`. -/
lemma deliverFrame_advance {m : MachineState} {c : FrameCallback} {t r : ℚ}
    (hpend : m.pending = some c)
    (h1 : 1 ≤ clamp ((t - c.start) / dur c.sceneIndex) 0 1)
    (h2 : ¬ SCENES.length - 1 ≤ c.sceneIndex)
    (hne : min (m.player.sceneIndex + 1) (SCENES.length - 1) ≠ m.player.sceneIndex) :
    deliverFrame m t r =
      runEffect ⟨min (m.player.sceneIndex + 1) (SCENES.length - 1), 0,
        m.player.runId, m.player.isComplete⟩ r := by
  simp [deliverFrame, hpend, step, h1, h2, runEffect, hne]

lemma inv_initial (start0 : ℚ) : Inv (initialState start0) := by
  norm_num [Inv, initialState, runEffect, cbInv, SCENES_length]

lemma inv_deliverFrame {m : MachineState} (h : Inv m) (t r : ℚ) :
    Inv (deliverFrame m t r) := by
  obtain ⟨hidx, hp0, hp1, hcomp, hrun, hcb⟩ := h
  rw [SCENES_length] at hidx
  rcases hpend : m.pending with _ | cb
  · rw [hpend] at hcb
    simpa [deliverFrame, hpend, Inv] using ⟨hidx, hp0, hp1, hcomp, hrun, hcb⟩
  · rw [hpend] at hcb
    simp only [cbInv] at hcb
    obtain ⟨hcF, hgen, hcidx⟩ := hcb
    by_cases h1 : (1 : ℚ) ≤ clamp ((t - cb.start) / dur cb.sceneIndex) 0 1
    · by_cases h2 : SCENES.length - 1 ≤ cb.sceneIndex
      · rw [deliverFrame_completion hpend h1 h2]
        rw [SCENES_length] at h2
        refine ⟨by simpa [SCENES_length] using hidx, by norm_num, le_refl 1, ?_, ?_, ?_⟩
        · intro _
          constructor
          · simp only [SCENES_length]
            omega
          · rfl
        · simp
        · simp [cbInv]
      · have hi : m.player.sceneIndex + 1 ≤ 4 := by
          rw [SCENES_length] at h2
          omega
        have hmin : min (m.player.sceneIndex + 1) (SCENES.length - 1) =
            m.player.sceneIndex + 1 := by
          simp only [SCENES_length]
          omega
        rw [deliverFrame_advance hpend h1 h2 (by rw [hmin]; omega)]
        refine ⟨?_, le_refl 0, by norm_num [runEffect], ?_, ?_, ?_⟩
        · simp only [runEffect, hmin, SCENES_length]
          omega
        · simp [runEffect, hcF]
        · intro _
          norm_num [runEffect]
        · simp [runEffect, cbInv, hcF, hmin]
    · rw [deliverFrame_continue hpend h1]
      refine ⟨by simpa [SCENES_length] using hidx, clamp_nonneg _, clamp_le_one _, ?_, ?_, ?_⟩
      · simp [hcF]
      · intro _
        exact lt_of_not_le h1
      · simp [cbInv, hcF, hgen, hcidx]

lemma inv_uiClickReplay {m : MachineState} (h : Inv m) (now : ℚ) :
    Inv (uiClickReplay m now) := by
  by_cases hc : m.player.isComplete
  · simp only [uiClickReplay, hc, if_true]
    norm_num [Inv, runEffect, handleReplay, cbInv, SCENES_length]
  · simpa [uiClickReplay, hc] using h

lemma reachable_inv {m : MachineState} (h : Reachable m) : Inv m := by
  induction h with
  | init start0 => exact inv_initial start0
  | frame t r _ ih => exact inv_deliverFrame ih t r
  | click now _ ih => exact inv_uiClickReplay ih now

lemma sceneIndex_deliverFrame {m : MachineState} (h : Inv m) (t r : ℚ) :
    (deliverFrame m t r).player.sceneIndex = m.player.sceneIndex ∨
    (deliverFrame m t r).player.sceneIndex = m.player.sceneIndex + 1 := by
  obtain ⟨hidx, _, _, _, _, hcb⟩ := h
  rw [SCENES_length] at hidx
  rcases hpend : m.pending with _ | cb
  · left
    simp [deliverFrame, hpend]
  · rw [hpend] at hcb
    simp only [cbInv] at hcb
    obtain ⟨hcF, hgen, hcidx⟩ := hcb
    by_cases h1 : (1 : ℚ) ≤ clamp ((t - cb.start) / dur cb.sceneIndex) 0 1
    · by_cases h2 : SCENES.length - 1 ≤ cb.sceneIndex
      · left
        rw [deliverFrame_completion hpend h1 h2]
      · have h2' : ¬ 4 ≤ m.player.sceneIndex := by
          rw [SCENES_length, hcidx] at h2
          exact h2
        have hmin : min (m.player.sceneIndex + 1) (SCENES.length - 1) =
            m.player.sceneIndex + 1 := by
          rw [SCENES_length]
          omega
        right
        rw [deliverFrame_advance hpend h1 h2 (by rw [hmin]; omega)]
        simp [runEffect, hmin]
    · left
      rw [deliverFrame_continue hpend h1]

lemma deliverFrames_cons (m : MachineState) (e : ℚ × ℚ) (evs : List (ℚ × ℚ)) :
    deliverFrames m (e :: evs) = deliverFrames (deliverFrame m e.1 e.2) evs := rfl

lemma sceneIndex_deliverFrames {m : MachineState} (h : Inv m) (evs : List (ℚ × ℚ)) :
    m.player.sceneIndex ≤ (deliverFrames m evs).player.sceneIndex := by
  induction evs generalizing m with
  | nil => simp [deliverFrames]
  | cons e evs ih =>
    rw [deliverFrames_cons]
    have h1 := sceneIndex_deliverFrame h e.1 e.2
    have h2 := ih (inv_deliverFrame h e.1 e.2)
    rcases h1 with h1 | h1 <;> omega

/-- C1: within one run generation (frame deliveries only, no replay), every
tick either leaves the active scene index unchanged or increments it by exactly
one, and over any sequence of ticks the index never decreases — hence no scene
index is revisited once passed. -/
theorem claim_C1_strict_scene_order :
    ∀ m : MachineState, Inv m →
      (∀ t r : ℚ,
        (deliverFrame m t r).player.sceneIndex = m.player.sceneIndex ∨
        (deliverFrame m t r).player.sceneIndex = m.player.sceneIndex + 1) ∧
      (∀ evs : List (ℚ × ℚ),
        m.player.sceneIndex ≤ (deliverFrames m evs).player.sceneIndex) :=
  fun _ h => ⟨sceneIndex_deliverFrame h, sceneIndex_deliverFrames h⟩

/-- Witness for C1 at the freshly mounted machine and a concrete tick. -/
theorem claim_C1_witness :
    (deliverFrame (initialState 0) 100 100).player.sceneIndex =
      (initialState 0).player.sceneIndex ∨
    (deliverFrame (initialState 0) 100 100).player.sceneIndex =
      (initialState 0).player.sceneIndex + 1 :=
  (claim_C1_strict_scene_order (initialState 0) (inv_initial 0)).1 100 100

/-- C3: `handleReplay` maps any playback state to `activeIndex = 0`,
`sceneProgress = 0`, `isComplete = false`, with `runId` incremented by exactly
one; its result does not depend on the playback position (the mid-run state
with `activeIndex = 3`, `sceneProgress = 0.6` gives the same reset), and a
repeated call only bumps the generation again. -/
theorem claim_C3_replay_resets :
    ∀ p : PlayerState,
      (handleReplay p).sceneIndex = 0 ∧
      (handleReplay p).sceneProgress = 0 ∧
      (handleReplay p).isComplete = false ∧
      (handleReplay p).runId = p.runId + 1 ∧
      handleReplay ⟨3, 3/5, p.runId, false⟩ = handleReplay p ∧
      handleReplay (handleReplay p) = ⟨0, 0, p.runId + 2, false⟩ :=
  fun _ => ⟨rfl, rfl, rfl, rfl, rfl, rfl⟩

/-- C4: on every reachable machine state, the pending animation-frame callback
was scheduled under the current `runId`, and firing a handle captured under a
different generation (in particular one captured under generation `g` arriving
after a replay advanced the generation to `g + 1`) mutates no state at all. -/
theorem claim_C4_stale_callbacks_noop :
    ∀ m : MachineState, Reachable m →
      (∀ cb : FrameCallback, m.pending = some cb → cb.gen = m.player.runId) ∧
      (∀ (cb : FrameCallback) (t r : ℚ), cb.gen ≠ m.player.runId →
        deliverCallback m cb t r = m) := by
  intro m hreach
  obtain ⟨_, _, _, _, _, hcb⟩ := reachable_inv hreach
  constructor
  · intro cb hpend
    rw [hpend] at hcb
    simp only [cbInv] at hcb
    exact hcb.2.1
  · intro cb t r hgen
    rcases hpend : m.pending with _ | cb'
    · simp [deliverCallback, hpend]
    · rw [hpend] at hcb
      simp only [cbInv] at hcb
      have hne : ¬ ((some cb' : Option FrameCallback) = some cb) := by
        simp only [Option.some.injEq]
        intro he
        rw [← he] at hgen
        exact hgen hcb.2.1
      simp [deliverCallback, hpend, hne]

/-- Witness for C4: at the freshly mounted machine (generation 0), firing a
handle captured under generation 1 changes nothing. -/
theorem claim_C4_witness :
    deliverCallback (initialState 0) ⟨1, 0, 0⟩ 100 100 = initialState 0 :=
  (claim_C4_stale_callbacks_noop (initialState 0) (Reachable.init 0)).2
    ⟨1, 0, 0⟩ 100 100 (by simp [initialState, runEffect])

/-- C5: for every scene and every tick timestamp — including timestamps giving
negative elapsed time or elapsed time beyond the scene's duration — the
progress fraction is clamped to [0,1], and the `sceneProgress` published by the
`step` callback is in [0,1]. -/
theorem claim_C5_progress_clamped :
    ∀ (p : PlayerState) (cb : FrameCallback) (t : ℚ),
      (0 ≤ clamp ((t - cb.start) / dur cb.sceneIndex) 0 1 ∧
        clamp ((t - cb.start) / dur cb.sceneIndex) 0 1 ≤ 1) ∧
      0 ≤ (step p cb t).1.sceneProgress ∧ (step p cb t).1.sceneProgress ≤ 1 := by
  intro p cb t
  refine ⟨⟨clamp_nonneg _, clamp_le_one _⟩, ?_⟩
  by_cases h1 : (1 : ℚ) ≤ clamp ((t - cb.start) / dur cb.sceneIndex) 0 1
  · by_cases h2 : SCENES.length - 1 ≤ cb.sceneIndex
    · simp [step, h1, h2]
    · simp [step, h1, h2]
  · simp only [step, h1, if_false]
    exact ⟨clamp_nonneg _, clamp_le_one _⟩

/-- C7: once `isComplete` is true (on an invariant state), no frame is pending
— so no further repaint was requested — the scene index is pinned at the last
scene with `sceneProgress = 1`, and neither a frame delivery nor the firing of
any stale handle changes the state; only the replay action can. -/
theorem claim_C7_complete_absorbing :
    ∀ m : MachineState, Inv m → m.player.isComplete = true →
      m.pending = none ∧
      m.player.sceneProgress = 1 ∧
      m.player.sceneIndex = SCENES.length - 1 ∧
      (∀ t r : ℚ, deliverFrame m t r = m) ∧
      (∀ (cb : FrameCallback) (t r : ℚ), deliverCallback m cb t r = m) := by
  intro m hInv hc
  obtain ⟨hidx, hp0, hp1, hcomp, hrun, hcb⟩ := hInv
  have hpend : m.pending = none := by
    rcases hpend : m.pending with _ | cb
    · rfl
    · rw [hpend] at hcb
      simp only [cbInv] at hcb
      rw [hcb.1] at hc
      cases hc
  refine ⟨hpend, (hcomp hc).2, (hcomp hc).1, ?_, ?_⟩
  · intro t r
    simp [deliverFrame, hpend]
  · intro cb t r
    simp [deliverCallback, hpend]

/-- Witness for C7 at the concrete completed machine state. -/
theorem claim_C7_witness :
    deliverFrame ⟨⟨4, 1, 0, true⟩, none⟩ 200 300 = ⟨⟨4, 1, 0, true⟩, none⟩ :=
  ((claim_C7_complete_absorbing ⟨⟨4, 1, 0, true⟩, none⟩
    (by norm_num [Inv, cbInv, SCENES_length]) rfl).2.2.2.1) 200 300

/-- C10: the replay control is part of the rendered output if and only if
`isComplete` is true; consequently a click reaches `handleReplay` only from the
complete state, and while a run is in progress clicking mutates nothing. -/
theorem claim_C10_replay_button_iff_complete :
    ∀ (m : MachineState) (now : ℚ),
      (Control.replayButton ∈ overlayControls m.player ↔
        m.player.isComplete = true) ∧
      (m.player.isComplete = false → uiClickReplay m now = m) ∧
      (m.player.isComplete = true →
        (uiClickReplay m now).player = handleReplay m.player) := by
  intro m now
  refine ⟨?_, ?_, ?_⟩
  · by_cases hc : m.player.isComplete <;> simp [overlayControls, hc]
  · intro hc
    simp [uiClickReplay, hc]
  · intro hc
    simp [uiClickReplay, hc, runEffect]

/-- Witness for C10: clicking while a run is in progress changes nothing. -/
theorem claim_C10_witness :
    uiClickReplay ⟨⟨2, 1/2, 0, false⟩, some ⟨0, 2, 100⟩⟩ 200 =
      ⟨⟨2, 1/2, 0, false⟩, some ⟨0, 2, 100⟩⟩ :=
  (claim_C10_replay_button_iff_complete
    ⟨⟨2, 1/2, 0, false⟩, some ⟨0, 2, 100⟩⟩ 200).2.1 rfl

lemma timelineProgress_of_complete {p : PlayerState} (h : p.isComplete = true) :
    timelineProgress p = 1 := by
  simp [timelineProgress, h]

lemma timelineProgress_of_running {p : PlayerState} (h : p.isComplete = false) :
    timelineProgress p =
      (elapsedBeforeScene p.sceneIndex + p.sceneProgress * dur p.sceneIndex) /
        TOTAL_DURATION := by
  simp [timelineProgress, h]

lemma elapsedBeforeScene_nonneg (i : Nat) : 0 ≤ elapsedBeforeScene i := by
  rw [elapsedBeforeScene_eq]
  rcases i with _ | _ | _ | _ | _ | n <;> norm_num

lemma prefix_add_dur {i : Nat} (h : i < 5) :
    elapsedBeforeScene i + dur i = elapsedBeforeScene (i + 1) := by
  interval_cases i <;> norm_num [elapsedBeforeScene_eq, dur_eq]

lemma prefix_add_dur_le {i : Nat} (h : i < 5) :
    elapsedBeforeScene i + dur i ≤ TOTAL_DURATION := by
  interval_cases i <;> norm_num [elapsedBeforeScene_eq, dur_eq, TOTAL_DURATION_eq]

lemma TOTAL_pos : (0 : ℚ) < TOTAL_DURATION := by
  norm_num [TOTAL_DURATION_eq]

lemma timelineProgress_nonneg {p : PlayerState} (hidx : p.sceneIndex < 5)
    (hp0 : 0 ≤ p.sceneProgress) : 0 ≤ timelineProgress p := by
  by_cases hc : p.isComplete
  · rw [timelineProgress_of_complete hc]
    norm_num
  · rw [timelineProgress_of_running (by simpa using hc)]
    exact div_nonneg
      (add_nonneg (elapsedBeforeScene_nonneg _) (mul_nonneg hp0 (dur_pos hidx).le))
      TOTAL_pos.le

lemma timelineProgress_le_one {p : PlayerState} (hidx : p.sceneIndex < 5)
    (hp1 : p.sceneProgress ≤ 1) : timelineProgress p ≤ 1 := by
  by_cases hc : p.isComplete
  · rw [timelineProgress_of_complete hc]
  · rw [timelineProgress_of_running (by simpa using hc), div_le_one TOTAL_pos]
    have h1 : p.sceneProgress * dur p.sceneIndex ≤ dur p.sceneIndex :=
      mul_le_of_le_one_left (dur_pos hidx).le hp1
    have h2 := prefix_add_dur_le hidx
    linarith

lemma timelineProgress_lt_one {p : PlayerState} (hidx : p.sceneIndex < 5)
    (hplt : p.sceneProgress < 1) (hc : p.isComplete = false) :
    timelineProgress p < 1 := by
  rw [timelineProgress_of_running hc, div_lt_one TOTAL_pos]
  have h1 : p.sceneProgress * dur p.sceneIndex < dur p.sceneIndex :=
    mul_lt_of_lt_one_left (dur_pos hidx) hplt
  have h2 := prefix_add_dur_le hidx
  linarith

lemma inv_timelineProgress {m : MachineState} (h : Inv m) :
    0 ≤ timelineProgress m.player ∧ timelineProgress m.player ≤ 1 ∧
      (timelineProgress m.player = 1 ↔ m.player.isComplete = true) := by
  obtain ⟨hidx, hp0, hp1, hcomp, hrun, _⟩ := h
  rw [SCENES_length] at hidx
  refine ⟨timelineProgress_nonneg hidx hp0, timelineProgress_le_one hidx hp1, ?_, ?_⟩
  · intro h1
    by_contra hcon
    have hc' : m.player.isComplete = false := by simpa using hcon
    have := timelineProgress_lt_one hidx (hrun hc') hc'
    rw [h1] at this
    exact lt_irrefl 1 this
  · intro hc
    exact timelineProgress_of_complete hc

/-- C2: on every reachable state, the derived timeline progress is the formula
of ScenePlayer.tsx lines 144-148 when `isComplete` is false, is exactly 1 when
`isComplete` is true, always lies in [0,1], and equals 1 if and only if
`isComplete` is true.  (`timelineProgress` is a function of the playback state
and the static scene list by construction, so it is side-effect free.) -/
theorem claim_C2_timeline_progress :
    ∀ m : MachineState, Reachable m →
      (m.player.isComplete = false →
        timelineProgress m.player =
          (elapsedBeforeScene m.player.sceneIndex +
            m.player.sceneProgress * dur m.player.sceneIndex) / TOTAL_DURATION) ∧
      (m.player.isComplete = true → timelineProgress m.player = 1) ∧
      0 ≤ timelineProgress m.player ∧
      timelineProgress m.player ≤ 1 ∧
      (timelineProgress m.player = 1 ↔ m.player.isComplete = true) := by
  intro m hreach
  have hb := inv_timelineProgress (reachable_inv hreach)
  exact ⟨fun hc => timelineProgress_of_running hc,
    fun hc => timelineProgress_of_complete hc, hb.1, hb.2.1, hb.2.2⟩

/-- Witness for C2 at the freshly mounted machine. -/
theorem claim_C2_witness :
    0 ≤ timelineProgress (initialState 0).player ∧
    timelineProgress (initialState 0).player ≤ 1 ∧
    (timelineProgress (initialState 0).player = 1 ↔
      (initialState 0).player.isComplete = true) :=
  ⟨(claim_C2_timeline_progress (initialState 0) (Reachable.init 0)).2.2.1,
   (claim_C2_timeline_progress (initialState 0) (Reachable.init 0)).2.2.2.1,
   (claim_C2_timeline_progress (initialState 0) (Reachable.init 0)).2.2.2.2⟩

lemma deliverFrame_of_none {m : MachineState} {t r : ℚ} (hpend : m.pending = none) :
    deliverFrame m t r = m := by
  simp [deliverFrame, hpend]

/-- One tick can only grow the timeline progress, provided the stored progress
is below the value the pending callback would publish at the tick's timestamp
(which holds for the state left behind by any earlier tick, see
`anchored_after_deliverFrame`). -/
lemma tlp_mono_step {m : MachineState} (h : Inv m) {t : ℚ}
    (ha : ∀ cb, m.pending = some cb →
      m.player.sceneProgress ≤ clamp ((t - cb.start) / dur cb.sceneIndex) 0 1)
    (r : ℚ) :
    timelineProgress m.player ≤ timelineProgress (deliverFrame m t r).player := by
  obtain ⟨hidx, hp0, hp1, hcomp, hrun, hcb⟩ := h
  rw [SCENES_length] at hidx
  rcases hpend : m.pending with _ | cb
  · rw [deliverFrame_of_none hpend]
  · rw [hpend] at hcb
    simp only [cbInv] at hcb
    obtain ⟨hcF, hgen, hcidx⟩ := hcb
    have hd : 0 < dur m.player.sceneIndex := dur_pos hidx
    by_cases h1 : (1 : ℚ) ≤ clamp ((t - cb.start) / dur cb.sceneIndex) 0 1
    · by_cases h2 : SCENES.length - 1 ≤ cb.sceneIndex
      · rw [deliverFrame_completion hpend h1 h2]
        exact le_trans (timelineProgress_le_one hidx hp1)
          (le_of_eq (timelineProgress_of_complete rfl).symm)
      · have h2' : ¬ 4 ≤ m.player.sceneIndex := by
          rw [SCENES_length, hcidx] at h2
          exact h2
        have hmin : min (m.player.sceneIndex + 1) (SCENES.length - 1) =
            m.player.sceneIndex + 1 := by
          rw [SCENES_length]
          omega
        rw [deliverFrame_advance hpend h1 h2 (by rw [hmin]; omega)]
        have hpost :
            (runEffect ⟨min (m.player.sceneIndex + 1) (SCENES.length - 1), 0,
              m.player.runId, m.player.isComplete⟩ r).player =
            ⟨m.player.sceneIndex + 1, 0, m.player.runId, m.player.isComplete⟩ := by
          simp [runEffect, hmin]
        rw [hpost,
          timelineProgress_of_running (p := ⟨m.player.sceneIndex + 1, 0,
            m.player.runId, m.player.isComplete⟩) hcF,
          timelineProgress_of_running hcF, div_le_div_iff_of_pos_right TOTAL_pos]
        have hpre := prefix_add_dur hidx
        have hnum : m.player.sceneProgress * dur m.player.sceneIndex ≤
            dur m.player.sceneIndex := mul_le_of_le_one_left hd.le hp1
        simp only [zero_mul, add_zero]
        linarith
    · rw [deliverFrame_continue hpend h1]
      have hle := ha cb hpend
      have hpost : timelineProgress
          (⟨⟨m.player.sceneIndex, clamp ((t - cb.start) / dur cb.sceneIndex) 0 1,
            m.player.runId, m.player.isComplete⟩, some cb⟩ : MachineState).player =
          (elapsedBeforeScene m.player.sceneIndex +
            clamp ((t - cb.start) / dur cb.sceneIndex) 0 1 *
              dur m.player.sceneIndex) / TOTAL_DURATION :=
        timelineProgress_of_running hcF
      rw [hpost, timelineProgress_of_running hcF, div_le_div_iff_of_pos_right TOTAL_pos]
      have hnum : m.player.sceneProgress * dur m.player.sceneIndex ≤
          clamp ((t - cb.start) / dur cb.sceneIndex) 0 1 * dur m.player.sceneIndex :=
        mul_le_mul_of_nonneg_right hle hd.le
      linarith

/-- The state a tick at timestamp `t₁` leaves behind stores a progress value no
larger than what its pending callback would publish at any later timestamp
`t₂ ≥ t₁` (repaint timestamps arrive in increasing order). -/
lemma anchored_after_deliverFrame {m : MachineState} (h : Inv m) {t₁ t₂ : ℚ}
    (hle : t₁ ≤ t₂) (r₁ : ℚ) :
    ∀ cb, (deliverFrame m t₁ r₁).pending = some cb →
      (deliverFrame m t₁ r₁).player.sceneProgress ≤
        clamp ((t₂ - cb.start) / dur cb.sceneIndex) 0 1 := by
  obtain ⟨hidx, hp0, hp1, hcomp, hrun, hcb⟩ := h
  rw [SCENES_length] at hidx
  rcases hpend : m.pending with _ | cb0
  · intro cb hc
    rw [deliverFrame_of_none hpend, hpend] at hc
    cases hc
  · rw [hpend] at hcb
    simp only [cbInv] at hcb
    obtain ⟨hcF, hgen, hcidx⟩ := hcb
    have hd : 0 < dur cb0.sceneIndex := by
      rw [hcidx]
      exact dur_pos hidx
    by_cases h1 : (1 : ℚ) ≤ clamp ((t₁ - cb0.start) / dur cb0.sceneIndex) 0 1
    · by_cases h2 : SCENES.length - 1 ≤ cb0.sceneIndex
      · intro cb hc
        rw [deliverFrame_completion hpend h1 h2] at hc
        cases hc
      · have hmin : min (m.player.sceneIndex + 1) (SCENES.length - 1) =
            m.player.sceneIndex + 1 := by
          rw [SCENES_length, hcidx] at h2
          rw [SCENES_length]
          omega
        intro cb hc
        rw [deliverFrame_advance hpend h1 h2 (by rw [hmin]; omega)] at hc ⊢
        exact clamp_nonneg _
    · intro cb hc
      rw [deliverFrame_continue hpend h1] at hc ⊢
      have hcb0 : cb = cb0 := by
        cases hc
        rfl
      subst hcb0
      exact le_trans (clamp_mono (by
        rw [div_le_div_iff_of_pos_right hd]
        linarith)) (le_refl _)

/-- C6: over consecutive ticks with non-decreasing timestamps within one run,
the timeline progress never decreases — a scene transition trades the reset of
`sceneProgress` for the grown prefix of completed durations — and the replay
reset puts the timeline progress back to 0. -/
theorem claim_C6_timeline_monotone :
    (∀ m : MachineState, Inv m → ∀ t₁ r₁ t₂ r₂ : ℚ, t₁ ≤ t₂ →
      timelineProgress (deliverFrame m t₁ r₁).player ≤
        timelineProgress (deliverFrame (deliverFrame m t₁ r₁) t₂ r₂).player) ∧
    (∀ p : PlayerState, timelineProgress (handleReplay p) = 0) := by
  constructor
  · intro m h t₁ r₁ t₂ r₂ hle
    exact tlp_mono_step (inv_deliverFrame h t₁ r₁)
      (anchored_after_deliverFrame h hle r₁) r₂
  · intro p
    simp [timelineProgress, handleReplay, elapsedBeforeScene, SCENES]

/-- Witness for C6 at the freshly mounted machine and two increasing ticks. -/
theorem claim_C6_witness :
    timelineProgress (deliverFrame (initialState 0) 100 100).player ≤
      timelineProgress
        (deliverFrame (deliverFrame (initialState 0) 100 100) 200 200).player :=
  claim_C6_timeline_monotone.1 (initialState 0) (inv_initial 0) 100 100 200 200
    (by norm_num)

lemma clamp_eq_one_of_one_le {x : ℚ} (h : 1 ≤ x) : clamp x 0 1 = 1 := by
  rw [clamp, max_eq_right (le_trans zero_le_one h), min_eq_left h]

lemma clamp_lt_one_of_lt_one {x : ℚ} (h : x < 1) : clamp x 0 1 < 1 :=
  lt_of_le_of_lt (min_le_right 1 (max 0 x)) (max_lt one_pos h)

/-- C8: when a scene transition fires (a tick reaches progress 1 on a non-last
scene), the callback scheduled for the next scene carries as its `start` the
fresh `performance.now()` sample `r` taken when the effect re-runs for the next
repaint — not the transition tick's timestamp: the post-transition state is the
same whatever the overshoot of the firing timestamp past the scene's end, and
the first tick of the new scene at `t₁` measures its elapsed time as `t₁ - r`,
carrying over no leftover elapsed time. -/
theorem claim_C8_fresh_scene_clock :
    ∀ (m : MachineState) (cb : FrameCallback) (t r : ℚ),
      Inv m → m.pending = some cb →
      1 ≤ clamp ((t - cb.start) / dur cb.sceneIndex) 0 1 →
      ¬ SCENES.length - 1 ≤ cb.sceneIndex →
      (deliverFrame m t r).pending =
        some ⟨m.player.runId, m.player.sceneIndex + 1, r⟩ ∧
      (∀ t' : ℚ, 1 ≤ clamp ((t' - cb.start) / dur cb.sceneIndex) 0 1 →
        deliverFrame m t' r = deliverFrame m t r) ∧
      (∀ t₁ r₁ : ℚ,
        ¬ 1 ≤ clamp ((t₁ - r) / dur (m.player.sceneIndex + 1)) 0 1 →
        (deliverFrame (deliverFrame m t r) t₁ r₁).player.sceneProgress =
          clamp ((t₁ - r) / dur (m.player.sceneIndex + 1)) 0 1) := by
  intro m cb t r hInv hpend h1 h2
  obtain ⟨hidx, _, _, _, _, hcb⟩ := hInv
  rw [SCENES_length] at hidx
  rw [hpend] at hcb
  simp only [cbInv] at hcb
  obtain ⟨hcF, hgen, hcidx⟩ := hcb
  have hmin : min (m.player.sceneIndex + 1) (SCENES.length - 1) =
      m.player.sceneIndex + 1 := by
    rw [SCENES_length, hcidx] at h2
    rw [SCENES_length]
    omega
  have hne : min (m.player.sceneIndex + 1) (SCENES.length - 1) ≠
      m.player.sceneIndex := by
    rw [hmin]
    omega
  have hadv := deliverFrame_advance (t := t) (r := r) hpend h1 h2 hne
  refine ⟨?_, ?_, ?_⟩
  · rw [hadv]
    simp [runEffect, hmin]
  · intro t' h1'
    rw [deliverFrame_advance (t := t') (r := r) hpend h1' h2 hne, hadv]
  · intro t₁ r₁ hlt
    rw [hadv]
    have hpend' : (runEffect ⟨min (m.player.sceneIndex + 1) (SCENES.length - 1), 0,
        m.player.runId, m.player.isComplete⟩ r).pending =
        some ⟨m.player.runId, min (m.player.sceneIndex + 1) (SCENES.length - 1), r⟩ :=
      rfl
    have h1'' : ¬ 1 ≤ clamp ((t₁ -
        (⟨m.player.runId, min (m.player.sceneIndex + 1) (SCENES.length - 1), r⟩ :
          FrameCallback).start) /
        dur (⟨m.player.runId, min (m.player.sceneIndex + 1) (SCENES.length - 1), r⟩ :
          FrameCallback).sceneIndex) 0 1 := by
      simpa [hmin] using hlt
    rw [deliverFrame_continue hpend' h1'']
    simp [hmin]

/-- Witness for C8: the first scene ends at elapsed 6500; a tick at 7000
(overshoot 500) fires the transition, and the new callback's clock starts at
the effect re-run sample 7000, not at the transition computation. -/
theorem claim_C8_witness :
    (deliverFrame (initialState 0) 7000 7000).pending =
      some ⟨(initialState 0).player.runId, (initialState 0).player.sceneIndex + 1,
        7000⟩ :=
  (claim_C8_fresh_scene_clock (initialState 0) ⟨0, 0, 0⟩ 7000 7000 (inv_initial 0) rfl
    (by
      have h : (1 : ℚ) ≤ ((7000 : ℚ) - 0) / dur 0 := by norm_num [dur_eq]
      exact (clamp_eq_one_of_one_le h).ge)
    (by decide)).1

/-- The tick schedule of spec sect. 8's end-to-end scenario: one tick exactly at
each scene boundary of the cumulative durations 6500, 13700, 19900, 26900,
34100, with the effect re-run sampled at the same instant. -/
def demoEvents : List (ℚ × ℚ) :=
  [(6500, 6500), (13700, 13700), (19900, 19900), (26900, 26900), (34100, 34100)]

lemma demoStep1 : deliverFrame (initialState 0) 6500 6500 =
    ⟨⟨1, 0, 0, false⟩, some ⟨0, 1, 6500⟩⟩ := by
  rw [deliverFrame_advance (c := ⟨0, 0, 0⟩) rfl
    (by
      have h : (1 : ℚ) ≤ ((6500 : ℚ) - 0) / dur 0 := by norm_num [dur_eq]
      exact (clamp_eq_one_of_one_le h).ge)
    (by decide) (by decide)]
  decide

lemma demoStep2 : deliverFrame ⟨⟨1, 0, 0, false⟩, some ⟨0, 1, 6500⟩⟩ 13700 13700 =
    ⟨⟨2, 0, 0, false⟩, some ⟨0, 2, 13700⟩⟩ := by
  rw [deliverFrame_advance (c := ⟨0, 1, 6500⟩) rfl
    (by
      have h : (1 : ℚ) ≤ ((13700 : ℚ) - 6500) / dur 1 := by norm_num [dur_eq]
      exact (clamp_eq_one_of_one_le h).ge)
    (by decide) (by decide)]
  decide

lemma demoStep3 : deliverFrame ⟨⟨2, 0, 0, false⟩, some ⟨0, 2, 13700⟩⟩ 19900 19900 =
    ⟨⟨3, 0, 0, false⟩, some ⟨0, 3, 19900⟩⟩ := by
  rw [deliverFrame_advance (c := ⟨0, 2, 13700⟩) rfl
    (by
      have h : (1 : ℚ) ≤ ((19900 : ℚ) - 13700) / dur 2 := by norm_num [dur_eq]
      exact (clamp_eq_one_of_one_le h).ge)
    (by decide) (by decide)]
  decide

lemma demoStep4 : deliverFrame ⟨⟨3, 0, 0, false⟩, some ⟨0, 3, 19900⟩⟩ 26900 26900 =
    ⟨⟨4, 0, 0, false⟩, some ⟨0, 4, 26900⟩⟩ := by
  rw [deliverFrame_advance (c := ⟨0, 3, 19900⟩) rfl
    (by
      have h : (1 : ℚ) ≤ ((26900 : ℚ) - 19900) / dur 3 := by norm_num [dur_eq]
      exact (clamp_eq_one_of_one_le h).ge)
    (by decide) (by decide)]
  decide

lemma demoStep5 : deliverFrame ⟨⟨4, 0, 0, false⟩, some ⟨0, 4, 26900⟩⟩ 34100 34100 =
    ⟨⟨4, 1, 0, true⟩, none⟩ := by
  rw [deliverFrame_completion (c := ⟨0, 4, 26900⟩) rfl
    (by
      have h : (1 : ℚ) ≤ ((34100 : ℚ) - 26900) / dur 4 := by norm_num [dur_eq]
      exact (clamp_eq_one_of_one_le h).ge)
    (by decide)]

/-- C9: the static scene list has exactly the five durations
[6500, 7200, 6200, 7000, 7200] summing to 34100, and feeding the sequencer the
tick schedule covering elapsed time 0 through 34100 drives the active index
through 0, 1, 2, 3, 4 and ends complete with timeline progress exactly 1. -/
theorem claim_C9_demo_run :
    SCENES.map SceneDefinition.duration = [6500, 7200, 6200, 7000, 7200] ∧
    SCENES.length = 5 ∧
    TOTAL_DURATION = 34100 ∧
    indexTrace (initialState 0) demoEvents = [0, 1, 2, 3, 4, 4] ∧
    deliverFrames (initialState 0) demoEvents = ⟨⟨4, 1, 0, true⟩, none⟩ ∧
    timelineProgress (deliverFrames (initialState 0) demoEvents).player = 1 := by
  have hE : deliverFrames (initialState 0) demoEvents = ⟨⟨4, 1, 0, true⟩, none⟩ := by
    simp only [deliverFrames, demoEvents, List.foldl_cons, List.foldl_nil,
      demoStep1, demoStep2, demoStep3, demoStep4, demoStep5]
  refine ⟨rfl, rfl, TOTAL_DURATION_eq, ?_, hE, ?_⟩
  · simp only [indexTrace, demoEvents, demoStep1, demoStep2, demoStep3, demoStep4,
      demoStep5]
    decide
  · rw [hE]
    exact timelineProgress_of_complete rfl

end ScenePlayer
